import Mathlib

/-!
Verification of the Text_to_SQL pipeline (src/app.py) against its specification.

The development shallowly embeds the pure computational core of `app.py`:

* `get_schema_from_db`   — schema rendering (line 39-43);
* `get_sql_query_from_question` / `extract_sql` — the regex extraction
  `re.search(r"(three backticks)sql\s*(.*?)\s*(three backticks)", raw, DOTALL | IGNORECASE)`
  followed by `.strip()` (lines 52-58);
* `parse_results`        — result-shape normalisation (lines 65-99);
* `query`                — the POST /query route handler (lines 105-133).

External collaborators (the langchain `SQLDatabase`, the LLM chain, the MySQL
driver and `ast.literal_eval`) are not part of src/, so they enter the model as
explicit parameters (functions `sql_chain`, `db_run`, `literal_eval`) or, where
the specification pins them down, as definitions marked `Modelled from the spec`.
Python exceptions are modelled by `Option`/`Except`: a `none`/`error` result is
a raised exception.
-/

/-- Python whitespace: the characters for which `str.isspace()` holds and which
the `re` module's `\s` class matches on `str` patterns (ASCII whitespace plus
the Unicode whitespace code points). -/
def isPySpace (c : Char) : Bool :=
  c == ' ' || c == '\t' || c == '\n' || c == '\r' || c == '\x0b' || c == '\x0c' ||
  (0x1c ≤ c.toNat && c.toNat ≤ 0x1f) || c.toNat == 0x85 || c.toNat == 0xa0 ||
  c.toNat == 0x1680 || (0x2000 ≤ c.toNat && c.toNat ≤ 0x200a) ||
  c.toNat == 0x2028 || c.toNat == 0x2029 || c.toNat == 0x202f ||
  c.toNat == 0x205f || c.toNat == 0x3000

/-- The backtick character (code point 96), written via `Char.ofNat`. -/
def backquote : Char := Char.ofNat 96

/-- Python `str.lstrip()` on a character list. -/
def lstripL (l : List Char) : List Char := l.dropWhile isPySpace

/-- Python `str.rstrip()` on a character list. -/
def rstripL (l : List Char) : List Char := (l.reverse.dropWhile isPySpace).reverse

/-- Python `str.strip()` on a character list. -/
def stripL (l : List Char) : List Char := rstripL (lstripL l)

/-- Python `str.strip()` on a `String`. -/
def pyStrip (s : String) : String := String.mk (stripL s.toList)

/-- Test whether the list starts with three backticks, i.e. whether the literal
part of the closing fence `(three backticks)` of the regex matches here. -/
def closeHere : List Char → Bool
  | c1 :: c2 :: c3 :: _ => c1 == backquote && c2 == backquote && c3 == backquote
  | _ => false

/-- Test whether the opening fence of the regex matches at the head of the
list: three backticks followed by `sql` matched case-insensitively
(`re.IGNORECASE` affects only the letters, not the backticks). -/
def fenceOpenHere (l : List Char) : Bool :=
  closeHere l &&
    (match l.drop 3 with
     | c4 :: c5 :: c6 :: _ =>
         c4.toLower == 's' && c5.toLower == 'q' && c6.toLower == 'l'
     | _ => false)

/-- The lazy part `(.*?)\s*(three backticks)` of the regex, started right after
the greedy leading `\s*` has consumed its maximal run.  The lazy group grows
one character at a time; before each growth step the engine tries to finish
with `\s*` followed by the closing backticks.  Because a backtick is not
whitespace, the backtracking of that final greedy `\s*` succeeds exactly when
the closing backticks sit at the end of the whitespace run, so a single check
at `dropWhile isPySpace` reproduces the engine's search order.  Returns the
contents of capture group 1, or `none` when no closing fence exists (the
overall match attempt fails). -/
def lazyScan : List Char → Option (List Char)
  | [] => Option.none
  | c :: cs =>
    if closeHere ((c :: cs).dropWhile isPySpace) then Option.some []
    else (lazyScan cs).map (fun g => c :: g)

/-- Attempt the whole pattern `(three backticks)sql\s*(.*?)\s*(three backticks)`
with the match anchored at the head of `l`; returns capture group 1.  The
leading `\s*` is greedy and never has to backtrack: any closing backticks lie
past the maximal whitespace run, since a backtick is not whitespace. -/
def matchAt (l : List Char) : Option (List Char) :=
  if fenceOpenHere l then lazyScan ((l.drop 6).dropWhile isPySpace)
  else Option.none

/-- The semantics of `re.search`: try the anchored match at every start
position from left to right and return the first success. -/
def searchFence : List Char → Option (List Char)
  | [] => Option.none
  | c :: cs =>
    match matchAt (c :: cs) with
    | Option.some g => Option.some g
    | Option.none => searchFence cs

/-- Whether three consecutive backticks occur anywhere in the list.  A string
with no such occurrence contains no fenced code block of any kind. -/
def hasTripleBacktick : List Char → Bool
  | [] => false
  | c :: cs => closeHere (c :: cs) || hasTripleBacktick cs

/-- The extraction step of `get_sql_query_from_question` (app.py lines 55-58):
`re.search` for the fenced block; on a match the response is replaced by
capture group 1 stripped, otherwise the response is returned as is. -/
def extract_sql (sql_query : String) : String :=
  match searchFence sql_query.toList with
  | Option.some g => String.mk (stripL g)
  | Option.none => sql_query

/-- Embedding of `get_sql_query_from_question` (app.py lines 52-58).  The LLM
chain `sql_chain.invoke` is an external collaborator and enters as the
parameter `sql_chain`; `Except.error` models an exception raised by the
chain (network/auth/quota failure), which propagates. -/
def get_sql_query_from_question (sql_chain : String → Except String String)
    (question : String) : Except String String :=
  (sql_chain question).map extract_sql

/-- Modelled from the spec: langchain's `SQLDatabase.get_table_info` (an
external collaborator, not under src/) renders the metadata of every visible
table, together with sample rows, into one string; the per-table description
blocks are joined pairwise by blank-line separators.  For the single-table
databases used below the separator never occurs, so nothing rests on its
exact choice. -/
def get_table_info (database : List String) : String :=
  String.intercalate "\n\n" database

/-- Embedding of `get_schema_from_db` (app.py lines 39-43).  The database is
modelled by its list of per-table description blocks.  The source computes
`"\n".join(table_info)` where `table_info` is the *string* returned by
`get_table_info()`; Python's `str.join` iterates that string character by
character, so the join inserts a newline between every two characters. -/
def get_schema_from_db (database : List String) : String :=
  let table_info := get_table_info database
  String.intercalate "\n" (table_info.toList.map (fun c => String.mk [c]))

/-- Python values that can reach `parse_results`: `None`, ints, strings,
tuples and lists (the shapes produced by the MySQL driver, by `db.run`'s
string rendering and by `ast.literal_eval`). -/
inductive PyVal where
  | none : PyVal
  | int : Int → PyVal
  | str : List Char → PyVal
  | tuple : List PyVal → PyVal
  | list : List PyVal → PyVal

/-- Python truthiness (`if not results`): `None`, `0`, and empty strings,
tuples and lists are falsy. -/
def pyTruthy : PyVal → Bool
  | PyVal.none => false
  | PyVal.int i => i != 0
  | PyVal.str s => !s.isEmpty
  | PyVal.tuple xs => !xs.isEmpty
  | PyVal.list xs => !xs.isEmpty

/-- Python `len()`: defined on strings, tuples and lists; raises `TypeError`
(modelled by `none`) on ints and `None`. -/
def pyLen : PyVal → Option Nat
  | PyVal.str s => Option.some s.length
  | PyVal.tuple xs => Option.some xs.length
  | PyVal.list xs => Option.some xs.length
  | _ => Option.none

/-- Python indexing `x[0]`: on a string it yields a one-character string; on a
tuple or list the first element; otherwise it raises (modelled by `none`). -/
def pyIndex0 : PyVal → Option PyVal
  | PyVal.str (c :: _) => Option.some (PyVal.str [c])
  | PyVal.tuple (x :: _) => Option.some x
  | PyVal.list (x :: _) => Option.some x
  | _ => Option.none

/-- Python `isinstance(row, tuple)`. -/
def isTuple : PyVal → Bool
  | PyVal.tuple _ => true
  | _ => false

/-- The tagged dictionary `\x7b"type": ..., "data": ...\x7d` returned by
`parse_results`; `data` of the `empty` variant is Python `None`, i.e.
`PyVal.none`. -/
structure ParsedResult where
  type : String
  data : PyVal

/-- The tail of `parse_results`' list branch (app.py lines 91-96): every row a
tuple gives the `table` variant, otherwise the `list` variant; the payload is
the whole sequence of rows in both cases. -/
def tableOrList (xs : List PyVal) : ParsedResult :=
  if xs.all isTuple then ⟨"table", PyVal.list xs⟩ else ⟨"list", PyVal.list xs⟩

/-- The list branch of `parse_results` (app.py lines 85-96).  For a singleton
list the source evaluates `len(results[0])`, which raises `TypeError`
(modelled by `none`) when the element is not sized; Python's `and` is
short-circuiting, so this happens only in the `len(results) == 1` case. -/
def classifyList : List PyVal → Option ParsedResult
  | [] => Option.some ⟨"empty", PyVal.none⟩
  | [x] =>
    match pyLen x with
    | Option.none => Option.none
    | Option.some n =>
      if n = 1 then (pyIndex0 x).map (fun v => ⟨"single", v⟩)
      else Option.some (tableOrList [x])
  | xs => Option.some (tableOrList xs)

/-- The fall-through after the string branch of `parse_results` (app.py lines
84-99): a list is classified by `classifyList`; anything else reaches the
final `return` and becomes the `single` variant carrying the value itself. -/
def pyClassify : PyVal → Option ParsedResult
  | PyVal.list xs => classifyList xs
  | v => Option.some ⟨"single", v⟩

/-- Whether the (stripped) string starts with an opening square bracket
(`results.startswith('[')`). -/
def startsWithBracket : List Char → Bool
  | c :: _ => c == '['
  | [] => false

/-- Whether the (stripped) string ends with a closing square bracket
(`results.endswith(']')`). -/
def endsWithBracket (l : List Char) : Bool :=
  match l.getLast? with
  | Option.some c => c == ']'
  | Option.none => false

/-- Embedding of `parse_results` (app.py lines 65-99).  `ast.literal_eval` is
an external collaborator and enters as the parameter `literal_eval`, with
`none` standing for a raised parse exception — the one exception the source
catches (the bare `except` on line 79).  The outer `Option` models the
exceptions `parse_results` itself can raise (the `len()` `TypeError` inside
`classifyList`), which the source does not catch. -/
def parse_results (literal_eval : List Char → Option PyVal) (results : PyVal) :
    Option ParsedResult :=
  if !pyTruthy results then Option.some ⟨"empty", PyVal.none⟩
  else
    match results with
    | PyVal.str s0 =>
      let s := stripL s0
      if startsWithBracket s && endsWithBracket s then
        match literal_eval s with
        | Option.some v => pyClassify v
        | Option.none => Option.some ⟨"text", PyVal.str s⟩
      else Option.some ⟨"text", PyVal.str s⟩
    | v => pyClassify v

/-- The JSON body of a POST /query request, reduced to the one field the
handler reads; `none` models a body in which the `question` key is absent
(`data.get('question', '')` then yields the empty string). -/
structure JsonBody where
  question : Option String

/-- The three body shapes the /query handler can send back. -/
inductive QueryResponse where
  | badRequest (error : String) : QueryResponse
  | okResp (sql_query : String) (results : ParsedResult) : QueryResponse
  | serverError (error : String) : QueryResponse

/-- Embedding of the `query` route handler (app.py lines 105-133), returning
the HTTP status code together with the response body.  The LLM chain and
`db.run` are external collaborators passed as parameters whose `Except.error`
results model raised exceptions; `tyMsg` is the message of the `TypeError`
that `parse_results` may raise.  Every exception inside the `try` block is
converted by the `except` clause into a 500 response carrying the message. -/
def query (sql_chain : String → Except String String)
    (db_run : String → Except String PyVal)
    (literal_eval : List Char → Option PyVal)
    (tyMsg : String) (body : JsonBody) : Nat × QueryResponse :=
  let question := body.question.getD ""
  if question = "" then (400, QueryResponse.badRequest "Question is required")
  else
    match get_sql_query_from_question sql_chain question with
    | Except.error e => (500, QueryResponse.serverError e)
    | Except.ok sql_query =>
      match db_run sql_query with
      | Except.error e => (500, QueryResponse.serverError e)
      | Except.ok results =>
        match parse_results literal_eval results with
        | Option.none => (500, QueryResponse.serverError tyMsg)
        | Option.some pr => (200, QueryResponse.okResp sql_query pr)

/-- The opening fence of the regex as a character list: three backticks and a
three-letter tag. -/
def fenceOpen (c4 c5 c6 : Char) : List Char :=
  backquote :: backquote :: backquote :: c4 :: c5 :: c6 :: []

/-- The closing fence of the regex as a character list: three backticks. -/
def fenceClose : List Char := backquote :: backquote :: backquote :: []

/-! ### Library facts about `dropWhile` and the strip functions -/

theorem isPySpace_backquote : isPySpace backquote = false := by decide

theorem isPySpace_lbracket : isPySpace '[' = false := by decide

theorem mem_of_dropWhile_eq_cons {p : Char → Bool} {l cs : List Char} {c : Char}
    (h : List.dropWhile p l = c :: cs) : c ∈ l := by
  induction l with
  | nil => simp [List.dropWhile] at h
  | cons a as ih =>
    rw [List.dropWhile_cons] at h
    by_cases hp : p a
    · simp only [hp, if_true] at h
      exact List.mem_cons_of_mem a (ih h)
    · simp only [hp, if_false] at h
      cases h
      exact List.mem_cons_self _ _

theorem head_false_of_dropWhile_eq_cons {p : Char → Bool} {l cs : List Char} {c : Char}
    (h : List.dropWhile p l = c :: cs) : p c = false := by
  induction l with
  | nil => simp [List.dropWhile] at h
  | cons a as ih =>
    rw [List.dropWhile_cons] at h
    by_cases hp : p a
    · simp only [hp, if_true] at h
      exact ih h
    · simp only [hp, if_false] at h
      cases h
      simpa using hp

theorem dropWhile_append_of_eq_nil {p : Char → Bool} {a : List Char} (b : List Char)
    (h : List.dropWhile p a = []) :
    List.dropWhile p (a ++ b) = List.dropWhile p b := by
  rw [List.dropWhile_append, h]
  simp

theorem dropWhile_append_of_eq_cons {p : Char → Bool} {a ds : List Char} {d : Char}
    (b : List Char) (h : List.dropWhile p a = d :: ds) :
    List.dropWhile p (a ++ b) = d :: (ds ++ b) := by
  rw [List.dropWhile_append, h]
  simp

theorem dropWhile_idem (p : Char → Bool) (l : List Char) :
    List.dropWhile p (List.dropWhile p l) = List.dropWhile p l := by
  cases h : List.dropWhile p l with
  | nil => simp
  | cons c cs =>
    have hc := head_false_of_dropWhile_eq_cons h
    simp [List.dropWhile_cons, hc]

theorem rstripL_eq_nil_iff {l : List Char} :
    rstripL l = [] ↔ l.all isPySpace = true := by
  simp [rstripL, List.dropWhile_eq_nil_iff, List.all_eq_true]

theorem rstripL_cons_of_neg {c : Char} (cs : List Char) (hc : isPySpace c = false) :
    rstripL (c :: cs) = c :: rstripL cs := by
  unfold rstripL
  rw [List.reverse_cons]
  cases h : List.dropWhile isPySpace cs.reverse with
  | nil =>
    rw [dropWhile_append_of_eq_nil _ h]
    simp [List.dropWhile_cons, hc]
  | cons d ds =>
    rw [dropWhile_append_of_eq_cons _ h]
    simp

theorem rstripL_cons_of_ne_nil {c : Char} {cs : List Char} (h : rstripL cs ≠ []) :
    rstripL (c :: cs) = c :: rstripL cs := by
  unfold rstripL
  rw [List.reverse_cons]
  cases h' : List.dropWhile isPySpace cs.reverse with
  | nil =>
    exact absurd (by simp [rstripL, h']) h
  | cons d ds =>
    rw [dropWhile_append_of_eq_cons _ h']
    simp

theorem rstripL_rstripL (l : List Char) : rstripL (rstripL l) = rstripL l := by
  unfold rstripL
  rw [List.reverse_reverse, dropWhile_idem]

theorem lstripL_stripL (l : List Char) : lstripL (rstripL (lstripL l)) = rstripL (lstripL l) := by
  cases h : lstripL l with
  | nil => simp [rstripL, lstripL, List.dropWhile]
  | cons c cs =>
    have hc : isPySpace c = false := head_false_of_dropWhile_eq_cons h
    rw [rstripL_cons_of_neg cs hc]
    simp [lstripL, List.dropWhile_cons, hc]

theorem stripL_idem (l : List Char) : stripL (stripL l) = stripL l := by
  show rstripL (lstripL (rstripL (lstripL l))) = rstripL (lstripL l)
  rw [lstripL_stripL, rstripL_rstripL]

/-! ### Behaviour of the fence scanner -/

theorem toList_mk (l : List Char) : (String.mk l).toList = l := rfl

theorem closeHere_cons_ne {c : Char} (hc : c ≠ backquote) (l : List Char) :
    closeHere (c :: l) = false := by
  cases l with
  | nil => rfl
  | cons d l' =>
    cases l' with
    | nil => rfl
    | cons e l'' => simp [closeHere, hc]

theorem lazyScan_fence (inner suf : List Char) (h : backquote ∉ inner) :
    lazyScan (inner ++ backquote :: backquote :: backquote :: suf) =
      Option.some (rstripL inner) := by
  induction inner with
  | nil =>
    have h1 : List.dropWhile isPySpace (backquote :: backquote :: backquote :: suf) =
        backquote :: backquote :: backquote :: suf :=
      List.dropWhile_cons_of_neg (by simp [isPySpace_backquote])
    simp [lazyScan, h1, closeHere, rstripL]
  | cons c cs ih =>
    have hc : c ≠ backquote := by
      intro he
      exact h (by rw [← he]; exact List.mem_cons_self _ _)
    have hcs : backquote ∉ cs := fun hm => h (List.mem_cons_of_mem _ hm)
    by_cases hws : isPySpace c
    · have hd : List.dropWhile isPySpace
          (c :: (cs ++ backquote :: backquote :: backquote :: suf)) =
          List.dropWhile isPySpace cs ++ backquote :: backquote :: backquote :: suf := by
        rw [List.dropWhile_cons_of_pos hws]
        cases h' : List.dropWhile isPySpace cs with
        | nil =>
          rw [dropWhile_append_of_eq_nil _ h',
            List.dropWhile_cons_of_neg (by simp [isPySpace_backquote])]
          simp
        | cons d ds =>
          rw [dropWhile_append_of_eq_cons _ h']
          simp
      cases h' : List.dropWhile isPySpace cs with
      | nil =>
        have hall : cs.all isPySpace = true :=
          List.all_eq_true.mpr (List.dropWhile_eq_nil_iff.mp h')
        have hguard : closeHere (List.dropWhile isPySpace
            (c :: (cs ++ backquote :: backquote :: backquote :: suf))) = true := by
          rw [hd, h']
          simp [closeHere]
        have hnil : rstripL (c :: cs) = [] :=
          rstripL_eq_nil_iff.mpr (by simp [List.all_cons, hws, hall])
        simp only [List.cons_append, lazyScan]
        simp [hguard, hnil]
      | cons d ds =>
        have hdne : d ≠ backquote := by
          intro he
          exact hcs (by rw [← he]; exact mem_of_dropWhile_eq_cons h')
        have hguard : closeHere (List.dropWhile isPySpace
            (c :: (cs ++ backquote :: backquote :: backquote :: suf))) = false := by
          rw [hd, h']
          simpa using closeHere_cons_ne hdne
            (ds ++ backquote :: backquote :: backquote :: suf)
        have hne : rstripL cs ≠ [] := by
          rw [Ne, rstripL_eq_nil_iff]
          intro hall
          have hdw : List.dropWhile isPySpace cs = [] :=
            List.dropWhile_eq_nil_iff.mpr (List.all_eq_true.mp hall)
          rw [hdw] at h'
          exact List.noConfusion h'
        simp only [List.cons_append, lazyScan]
        simp [hguard, ih hcs, rstripL_cons_of_ne_nil hne]
    · have hguard : closeHere (List.dropWhile isPySpace
          (c :: (cs ++ backquote :: backquote :: backquote :: suf))) = false := by
        rw [List.dropWhile_cons_of_neg hws]
        exact closeHere_cons_ne hc _
      simp only [List.cons_append, lazyScan]
      simp [hguard, ih hcs, rstripL_cons_of_neg cs (by simpa using hws)]

theorem matchAt_fence (interior suf : List Char) (c4 c5 c6 : Char)
    (hc4 : c4.toLower = 's') (hc5 : c5.toLower = 'q') (hc6 : c6.toLower = 'l')
    (hint : backquote ∉ interior) :
    matchAt (backquote :: backquote :: backquote :: c4 :: c5 :: c6 ::
      (interior ++ backquote :: backquote :: backquote :: suf)) =
      Option.some (stripL interior) := by
  have hopen : fenceOpenHere (backquote :: backquote :: backquote :: c4 :: c5 :: c6 ::
      (interior ++ backquote :: backquote :: backquote :: suf)) = true := by
    simp [fenceOpenHere, closeHere, hc4, hc5, hc6]
  have hdw : List.dropWhile isPySpace
      (interior ++ backquote :: backquote :: backquote :: suf) =
      lstripL interior ++ backquote :: backquote :: backquote :: suf := by
    cases h' : List.dropWhile isPySpace interior with
    | nil =>
      rw [dropWhile_append_of_eq_nil _ h',
        List.dropWhile_cons_of_neg (by simp [isPySpace_backquote])]
      simp [lstripL, h']
    | cons d ds =>
      rw [dropWhile_append_of_eq_cons _ h']
      simp [lstripL, h']
  have hbq : backquote ∉ lstripL interior :=
    fun hm => hint ((List.dropWhile_sublist _).subset hm)
  simp only [matchAt, hopen, if_true, List.drop_succ_cons, List.drop_zero]
  rw [hdw, lazyScan_fence (lstripL interior) suf hbq]
  rfl

theorem matchAt_cons_ne {c : Char} (l : List Char) (hc : c ≠ backquote) :
    matchAt (c :: l) = Option.none := by
  have hf : fenceOpenHere (c :: l) = false := by
    unfold fenceOpenHere
    rw [closeHere_cons_ne hc l]
    simp
  simp [matchAt, hf]

theorem searchFence_append (pre l : List Char) (hpre : backquote ∉ pre) :
    searchFence (pre ++ l) = searchFence l := by
  induction pre with
  | nil => simp
  | cons p ps ih =>
    have hp : p ≠ backquote := by
      intro he
      exact hpre (by rw [← he]; exact List.mem_cons_self _ _)
    have hps : backquote ∉ ps := fun hm => hpre (List.mem_cons_of_mem _ hm)
    simp only [List.cons_append, searchFence, matchAt_cons_ne _ hp]
    exact ih hps

theorem searchFence_fence (pre interior suf : List Char) (c4 c5 c6 : Char)
    (hc4 : c4.toLower = 's') (hc5 : c5.toLower = 'q') (hc6 : c6.toLower = 'l')
    (hpre : backquote ∉ pre) (hint : backquote ∉ interior) :
    searchFence (pre ++ fenceOpen c4 c5 c6 ++ interior ++ fenceClose ++ suf) =
      Option.some (stripL interior) := by
  simp only [List.append_assoc]
  rw [searchFence_append _ _ hpre]
  simp only [fenceOpen, fenceClose, List.cons_append, List.nil_append]
  simp only [searchFence]
  rw [matchAt_fence interior suf c4 c5 c6 hc4 hc5 hc6 hint]

theorem extract_sql_fence (pre interior suf : List Char) (c4 c5 c6 : Char)
    (hc4 : c4.toLower = 's') (hc5 : c5.toLower = 'q') (hc6 : c6.toLower = 'l')
    (hpre : backquote ∉ pre) (hint : backquote ∉ interior) :
    extract_sql (String.mk (pre ++ fenceOpen c4 c5 c6 ++ interior ++ fenceClose ++ suf)) =
      String.mk (stripL interior) := by
  unfold extract_sql
  rw [toList_mk, searchFence_fence pre interior suf c4 c5 c6 hc4 hc5 hc6 hpre hint]
  simp [stripL_idem]

theorem matchAt_of_closeHere_false {l : List Char} (h : closeHere l = false) :
    matchAt l = Option.none := by
  have hf : fenceOpenHere l = false := by
    unfold fenceOpenHere
    rw [h]
    simp
  simp [matchAt, hf]

theorem searchFence_of_no_triple {l : List Char} (h : hasTripleBacktick l = false) :
    searchFence l = Option.none := by
  induction l with
  | nil => rfl
  | cons c cs ih =>
    simp only [hasTripleBacktick, Bool.or_eq_false_iff] at h
    simp only [searchFence, matchAt_of_closeHere_false h.1]
    exact ih h.2

theorem extract_sql_of_no_triple (s : String) (h : hasTripleBacktick s.toList = false) :
    extract_sql s = s := by
  unfold extract_sql
  rw [searchFence_of_no_triple h]

/-! ### Behaviour of the result normalisation -/

theorem pyIndex0_isSome_of_pyLen_one {x : PyVal} (h : pyLen x = Option.some 1) :
    (pyIndex0 x).isSome = true := by
  cases x with
  | none => simp [pyLen] at h
  | int i => simp [pyLen] at h
  | str s =>
    simp only [pyLen, Option.some.injEq] at h
    obtain ⟨c, rfl⟩ := List.length_eq_one.mp h
    simp [pyIndex0]
  | tuple xs =>
    simp only [pyLen, Option.some.injEq] at h
    obtain ⟨y, rfl⟩ := List.length_eq_one.mp h
    simp [pyIndex0]
  | list xs =>
    simp only [pyLen, Option.some.injEq] at h
    obtain ⟨y, rfl⟩ := List.length_eq_one.mp h
    simp [pyIndex0]

theorem classifyList_isSome {xs : List PyVal}
    (h : ∀ x, xs = [x] → (pyLen x).isSome = true) :
    (classifyList xs).isSome = true := by
  cases xs with
  | nil => simp [classifyList]
  | cons x t =>
    cases t with
    | nil =>
      have hx := h x rfl
      cases hl : pyLen x with
      | none => rw [hl] at hx; simp at hx
      | some n =>
        by_cases hn : n = 1
        · subst hn
          have hi := pyIndex0_isSome_of_pyLen_one hl
          simp [classifyList, hl, hi]
        · simp [classifyList, hl, hn]
    | cons y rest => simp [classifyList]

theorem pyClassify_isSome {w : PyVal}
    (h : ∀ x, w = PyVal.list [x] → (pyLen x).isSome = true) :
    (pyClassify w).isSome = true := by
  cases w with
  | list xs =>
    exact classifyList_isSome (fun x hx => h x (by rw [hx]))
  | none => simp [pyClassify]
  | int i => simp [pyClassify]
  | str s => simp [pyClassify]
  | tuple xs => simp [pyClassify]

theorem tableOrList_type (xs : List PyVal) :
    (tableOrList xs).type = "table" ∨ (tableOrList xs).type = "list" := by
  by_cases h : xs.all isTuple
  · left; simp [tableOrList, h]
  · right; simp [tableOrList, h]

theorem classifyList_empty_eq {xs : List PyVal} {r : ParsedResult}
    (h : classifyList xs = Option.some r) (ht : r.type = "empty") : xs = [] := by
  cases xs with
  | nil => rfl
  | cons x t =>
    cases t with
    | nil =>
      cases hl : pyLen x with
      | none => simp [classifyList, hl] at h
      | some n =>
        by_cases hn : n = 1
        · subst hn
          simp only [classifyList, hl, if_true, reduceIte] at h
          cases hi : pyIndex0 x with
          | none => rw [hi] at h; simp at h
          | some w =>
            rw [hi] at h
            simp at h
            have h3 : ("single" : String) = "empty" := by rw [← h] at ht; exact ht
            exact absurd h3 (by decide)
        · simp only [classifyList, hl, hn, if_false, reduceIte, Option.some.injEq] at h
          rw [← h] at ht
          rcases tableOrList_type [x] with h2 | h2 <;> rw [ht] at h2 <;>
            exact absurd h2 (by decide)
    | cons y rest =>
      simp only [classifyList, Option.some.injEq] at h
      rw [← h] at ht
      rcases tableOrList_type (x :: y :: rest) with h2 | h2 <;> rw [ht] at h2 <;>
        exact absurd h2 (by decide)

theorem pyClassify_empty_eq {w : PyVal} {r : ParsedResult}
    (h : pyClassify w = Option.some r) (ht : r.type = "empty") : w = PyVal.list [] := by
  cases w with
  | list xs =>
    have h' : classifyList xs = Option.some r := by simpa [pyClassify] using h
    rw [classifyList_empty_eq h' ht]
  | none =>
    simp only [pyClassify, Option.some.injEq] at h
    rw [← h] at ht
    exact absurd ht (by decide)
  | int i =>
    simp only [pyClassify, Option.some.injEq] at h
    have h3 : ("single" : String) = "empty" := by rw [← h] at ht; exact ht
    exact absurd h3 (by decide)
  | str s =>
    simp only [pyClassify, Option.some.injEq] at h
    have h3 : ("single" : String) = "empty" := by rw [← h] at ht; exact ht
    exact absurd h3 (by decide)
  | tuple xs =>
    simp only [pyClassify, Option.some.injEq] at h
    have h3 : ("single" : String) = "empty" := by rw [← h] at ht; exact ht
    exact absurd h3 (by decide)

theorem parse_results_empty_source {ev : List Char → Option PyVal} {v : PyVal}
    {r : ParsedResult} (hp : parse_results ev v = Option.some r) (ht : r.type = "empty") :
    pyTruthy v = false ∨
      ∃ s, v = PyVal.str s ∧ ev (stripL s) = Option.some (PyVal.list []) := by
  by_cases htr : pyTruthy v
  · cases v with
    | none => simp [pyTruthy] at htr
    | int i =>
      have hp' : pyClassify (PyVal.int i) = Option.some r := by
        simpa [parse_results, htr] using hp
      exact PyVal.noConfusion (pyClassify_empty_eq hp' ht)
    | tuple xs =>
      have hp' : pyClassify (PyVal.tuple xs) = Option.some r := by
        simpa [parse_results, htr] using hp
      exact PyVal.noConfusion (pyClassify_empty_eq hp' ht)
    | list xs =>
      have hp' : pyClassify (PyVal.list xs) = Option.some r := by
        simpa [parse_results, htr] using hp
      have h2 := pyClassify_empty_eq hp' ht
      injection h2 with h3
      subst h3
      simp [pyTruthy] at htr
    | str s =>
      by_cases hb : startsWithBracket (stripL s) && endsWithBracket (stripL s)
      · cases hev : ev (stripL s) with
        | none =>
          have hp' : (⟨"text", PyVal.str (stripL s)⟩ : ParsedResult) = r := by
            simpa [parse_results, htr, hb, hev] using hp
          have h3 : ("text" : String) = "empty" := by rw [← hp'] at ht; exact ht
          exact absurd h3 (by decide)
        | some w =>
          have hp' : pyClassify w = Option.some r := by
            simpa [parse_results, htr, hb, hev] using hp
          have hw := pyClassify_empty_eq hp' ht
          right
          exact ⟨s, rfl, by rw [hev, hw]⟩
      · have hp' : (⟨"text", PyVal.str (stripL s)⟩ : ParsedResult) = r := by
          simpa [parse_results, htr, hb] using hp
        have h3 : ("text" : String) = "empty" := by rw [← hp'] at ht; exact ht
        exact absurd h3 (by decide)
  · left
    simpa using htr

/-! ### Claim C1 -/

/-- Claim C1 (code bug): the claim says `get_schema_from_db` joins the
per-table description blocks with one newline separator between consecutive
blocks.  The source instead joins the *characters* of the table-info string:
for a database with a single table whose description block is `ab` the code
produces `a`, newline, `b`, whereas one newline between per-table blocks
(`String.intercalate "\n"`) would leave the single block `ab` untouched. -/
theorem c1_schema_newline_bug :
    get_schema_from_db ["ab"] = "a\nb" ∧
      get_schema_from_db ["ab"] ≠ String.intercalate "\n" ["ab"] := by
  constructor
  · rfl
  · decide

/-! ### Claim C2 -/

/-- Claim C2 counterexample: the response `" SELECT 1 "` contains no fenced
code block (no triple backtick at all), yet `get_sql_query_from_question`
returns it with its leading and trailing whitespace intact, not trimmed as
the claim states. -/
theorem c2_counterexample :
    hasTripleBacktick (" SELECT 1 ".toList) = false ∧
      get_sql_query_from_question (fun _ => Except.ok " SELECT 1 ") "q" =
        Except.ok " SELECT 1 " ∧
      pyStrip " SELECT 1 " ≠ " SELECT 1 " := by
  refine ⟨by decide, rfl, by decide⟩

/-- Claim C2 as amended: for every LLM response containing no triple backtick
(hence no fenced block of any kind), `get_sql_query_from_question` returns
the entire raw response unchanged — in particular it does *not* trim
whitespace. -/
theorem c2_no_fence_passthrough (sql_chain : String → Except String String)
    (question : String) (raw : String)
    (hchain : sql_chain question = Except.ok raw)
    (hnf : hasTripleBacktick raw.toList = false) :
    get_sql_query_from_question sql_chain question = Except.ok raw := by
  unfold get_sql_query_from_question
  rw [hchain]
  simp [Except.map, extract_sql_of_no_triple raw hnf]

/-- Claim C2 witness: the amended theorem applied to the fence-free response
`"SELECT 1"`. -/
theorem c2_witness :
    hasTripleBacktick ("SELECT 1".toList) = false ∧
      get_sql_query_from_question (fun _ => Except.ok "SELECT 1") "q" =
        Except.ok "SELECT 1" :=
  ⟨by decide, c2_no_fence_passthrough (fun _ => Except.ok "SELECT 1") "q" "SELECT 1"
    rfl (by decide)⟩

/-! ### Claim C3 -/

/-- Claim C3 counterexample: a fenced block whose fence carries *no* language
tag is not recognized — the regex demands the literal tag `sql` after the
opening backticks — so the response comes back whole instead of as the
trimmed fence interior `"SELECT 1"` the claim requires. -/
theorem c3_counterexample :
    get_sql_query_from_question
        (fun _ => Except.ok "```\nSELECT 1\n```") "q" =
      Except.ok "```\nSELECT 1\n```" ∧
      ("```\nSELECT 1\n```" : String) ≠ "SELECT 1" := by
  refine ⟨rfl, by decide⟩

/-- Claim C3 as amended: the language tag is required, not optional.  For
every LLM response of the form `pre ++ fence-open ++ interior ++ fence-close
++ suf` whose opening fence is three backticks followed by a tag spelling
`sql` in any letter case, and whose prefix and interior contain no backtick,
`get_sql_query_from_question` returns exactly the fence interior trimmed of
leading and trailing whitespace, regardless of the surrounding text; a
tagless fence is not recognized (see the counterexample). -/
theorem c3_sql_fence_extraction (sql_chain : String → Except String String)
    (question : String) (pre interior suf : List Char) (c4 c5 c6 : Char)
    (hc4 : c4.toLower = 's') (hc5 : c5.toLower = 'q') (hc6 : c6.toLower = 'l')
    (hpre : backquote ∉ pre) (hint : backquote ∉ interior)
    (hchain : sql_chain question =
      Except.ok (String.mk (pre ++ fenceOpen c4 c5 c6 ++ interior ++ fenceClose ++ suf))) :
    get_sql_query_from_question sql_chain question =
      Except.ok (String.mk (stripL interior)) := by
  unfold get_sql_query_from_question
  rw [hchain]
  simp only [Except.map]
  rw [extract_sql_fence pre interior suf c4 c5 c6 hc4 hc5 hc6 hpre hint]

/-- Claim C3 witness: the amended theorem applied to the canonical response
from the specification, an upper-case tag demonstrating case-insensitivity. -/
theorem c3_witness :
    get_sql_query_from_question
        (fun _ => Except.ok "```SQL\nSELECT COUNT(*) FROM users;\n```") "q" =
      Except.ok "SELECT COUNT(*) FROM users;" := by
  have h := c3_sql_fence_extraction
    (fun _ => Except.ok "```SQL\nSELECT COUNT(*) FROM users;\n```") "q"
    [] ("\nSELECT COUNT(*) FROM users;\n".toList) [] 'S' 'Q' 'L'
    (by decide) (by decide) (by decide) (by decide) (by decide) rfl
  rw [h]
  rfl

/-! ### Claim C10 -/

/-- Claim C10: when the response contains two fenced SQL blocks, the search is
anchored at the leftmost fence and the lazy group stops at the first closing
backticks, so only the first fence's interior (trimmed) is returned and the
second block is ignored entirely. -/
theorem c10_first_fence_only (sql_chain : String → Except String String)
    (question : String) (pre i1 mid i2 suf : List Char)
    (hpre : backquote ∉ pre) (hi1 : backquote ∉ i1)
    (_hmid : backquote ∉ mid) (_hi2 : backquote ∉ i2)
    (hchain : sql_chain question =
      Except.ok (String.mk (pre ++ fenceOpen 's' 'q' 'l' ++ i1 ++ fenceClose ++
        (mid ++ fenceOpen 's' 'q' 'l' ++ i2 ++ fenceClose ++ suf)))) :
    get_sql_query_from_question sql_chain question =
      Except.ok (String.mk (stripL i1)) := by
  unfold get_sql_query_from_question
  rw [hchain]
  simp only [Except.map]
  rw [extract_sql_fence pre i1
    (mid ++ fenceOpen 's' 'q' 'l' ++ i2 ++ fenceClose ++ suf) 's' 'q' 'l'
    rfl rfl rfl hpre hi1]

/-- Claim C10 witness: a response with two fenced SQL blocks yields the first
interior only. -/
theorem c10_witness :
    get_sql_query_from_question
        (fun _ => Except.ok "```sql SELECT 1 ``` or ```sql SELECT 2 ```") "q" =
      Except.ok "SELECT 1" := by
  have h := c10_first_fence_only
    (fun _ => Except.ok "```sql SELECT 1 ``` or ```sql SELECT 2 ```") "q"
    [] (" SELECT 1 ".toList) (" or ".toList) (" SELECT 2 ".toList) []
    (by decide) (by decide) (by decide) (by decide) rfl
  rw [h]
  rfl

/-! ### Claim C4 -/

/-- Claim C4 counterexample: `parse_results` is not total.  On the list
`[42]` — one row that is a bare int — the source evaluates
`len(results[0])`, which raises `TypeError` (modelled by `Option.none`), so
no tagged variant is returned. -/
theorem c4_counterexample :
    parse_results (fun _ => Option.none) (PyVal.list [PyVal.int 42]) = Option.none :=
  rfl

/-- Claim C4 as amended: `parse_results` returns exactly one tagged variant on
every input except a one-element sequence whose sole element has no length
(is not a string, tuple or list); that exception also applies to the value a
string input parses to.  Under those two provisos the function never
raises. -/
theorem c4_totality_amended (ev : List Char → Option PyVal) (v : PyVal)
    (h1 : ∀ x, v = PyVal.list [x] → (pyLen x).isSome = true)
    (h2 : ∀ s x, v = PyVal.str s → ev (stripL s) = Option.some (PyVal.list [x]) →
      (pyLen x).isSome = true) :
    (parse_results ev v).isSome = true := by
  by_cases ht : pyTruthy v
  · cases v with
    | none => simp [parse_results, pyTruthy]
    | int i => simp [parse_results, ht, pyClassify]
    | tuple xs => simp [parse_results, ht, pyClassify]
    | list xs =>
      have hred : parse_results ev (PyVal.list xs) = pyClassify (PyVal.list xs) := by
        simp [parse_results, ht]
      rw [hred]
      exact pyClassify_isSome (fun x hx => h1 x hx)
    | str s =>
      by_cases hb : startsWithBracket (stripL s) && endsWithBracket (stripL s)
      · cases hev : ev (stripL s) with
        | none => simp [parse_results, ht, hb, hev]
        | some w =>
          have hred : parse_results ev (PyVal.str s) = pyClassify w := by
            simp [parse_results, ht, hb, hev]
          rw [hred]
          exact pyClassify_isSome (fun x hx => h2 s x rfl (by rw [hev, hx]))
      · simp [parse_results, ht, hb]
  · have ht' : pyTruthy v = false := by simpa using ht
    simp [parse_results, ht']

/-- Claim C4 witness: the amended theorem applied to the string `"hi"`, whose
hypotheses hold vacuously. -/
theorem c4_witness :
    (parse_results (fun _ => Option.none) (PyVal.str ['h', 'i'])).isSome = true :=
  c4_totality_amended (fun _ => Option.none) (PyVal.str ['h', 'i'])
    (fun _ h => PyVal.noConfusion h)
    (fun _ _ _ hev => Option.noConfusion hev)

/-! ### Claim C5 -/

/-- Claim C5 counterexample: on the input `" [bad] "` — non-empty, trimming
to a bracketed form that fails to parse — the `text` variant carries the
*stripped* string `"[bad]"`, not the raw input string unchanged as the claim
states. -/
theorem c5_counterexample :
    parse_results (fun _ => Option.none) (PyVal.str (" [bad] ".toList)) =
        Option.some ⟨"text", PyVal.str ("[bad]".toList)⟩ ∧
      "[bad]".toList ≠ " [bad] ".toList :=
  ⟨rfl, by decide⟩

/-- Claim C5 as amended: for every non-empty string input whose trimmed form
starts with an opening and ends with a closing square bracket and fails to
parse, `parse_results` returns the `text` variant carrying the *trimmed*
input string; the parse failure is recovered locally (a variant is returned,
nothing is raised). -/
theorem c5_text_fallback (ev : List Char → Option PyVal) (s : List Char)
    (hne : s ≠ [])
    (hstart : startsWithBracket (stripL s) = true)
    (hend : endsWithBracket (stripL s) = true)
    (hfail : ev (stripL s) = Option.none) :
    parse_results ev (PyVal.str s) = Option.some ⟨"text", PyVal.str (stripL s)⟩ := by
  have ht : pyTruthy (PyVal.str s) = true := by
    cases s with
    | nil => exact absurd rfl hne
    | cons a t => rfl
  simp [parse_results, ht, hstart, hend, hfail]

/-- Claim C5 witness: the amended theorem applied to the unparseable
bracketed string `"[nope]"`. -/
theorem c5_witness :
    parse_results (fun _ => Option.none) (PyVal.str ("[nope]".toList)) =
      Option.some ⟨"text", PyVal.str ("[nope]".toList)⟩ := by
  have h := c5_text_fallback (fun _ => Option.none) ("[nope]".toList)
    (by decide) (by decide) (by decide) rfl
  rw [h]
  rfl

/-! ### Claim C6 -/

/-- Claim C6: a sequence with exactly one row whose row has exactly one
column yields the `single` variant carrying that one value; the check sits
before the all-tuples test, so `[(42,)]` can never be classified as a
one-by-one table (the witness instantiates exactly that scenario). -/
theorem c6_single_precedence (ev : List Char → Option PyVal) (x v : PyVal)
    (hlen : pyLen x = Option.some 1) (hidx : pyIndex0 x = Option.some v) :
    parse_results ev (PyVal.list [x]) = Option.some ⟨"single", v⟩ := by
  simp [parse_results, pyTruthy, pyClassify, classifyList, hlen, hidx]

/-- Claim C6 witness: `[(42,)]` yields the `single` variant with payload 42. -/
theorem c6_witness :
    parse_results (fun _ => Option.none) (PyVal.list [PyVal.tuple [PyVal.int 42]]) =
      Option.some ⟨"single", PyVal.int 42⟩ :=
  c6_single_precedence (fun _ => Option.none) (PyVal.tuple [PyVal.int 42])
    (PyVal.int 42) rfl rfl

/-! ### Claim C7 -/

/-- Claim C7: a sequence of two or more rows in which every row is a tuple —
one-column tuples included — yields the `table` variant with the sequence of
rows as payload, never the `list` variant. -/
theorem c7_table_rows (ev : List Char → Option PyVal) (xs : List PyVal)
    (h2 : 2 ≤ xs.length) (htup : xs.all isTuple = true) :
    parse_results ev (PyVal.list xs) = Option.some ⟨"table", PyVal.list xs⟩ := by
  cases xs with
  | nil => simp at h2
  | cons x t =>
    cases t with
    | nil => simp at h2
    | cons y rest =>
      simp [parse_results, pyTruthy, pyClassify, classifyList, tableOrList, htup]

/-- Claim C7 witness: the one-column two-row tuple list yields `table`. -/
theorem c7_witness :
    parse_results (fun _ => Option.none)
        (PyVal.list [PyVal.tuple [PyVal.str ['x']], PyVal.tuple [PyVal.str ['y']]]) =
      Option.some ⟨"table",
        PyVal.list [PyVal.tuple [PyVal.str ['x']], PyVal.tuple [PyVal.str ['y']]]⟩ :=
  c7_table_rows (fun _ => Option.none) _ (by decide) rfl

/-! ### Claim C8 -/

/-- Claim C8 counterexample: the non-empty (truthy) string `"[]"` — not
empty, not null, of length two — is parsed by the string branch into the
empty sequence and then mapped to the `empty` variant, so falsy inputs are
*not* the only sources of `empty`. -/
theorem c8_counterexample :
    pyTruthy (PyVal.str ("[]".toList)) = true ∧
      parse_results
          (fun s => if s = "[]".toList then Option.some (PyVal.list []) else Option.none)
          (PyVal.str ("[]".toList)) = Option.some ⟨"empty", PyVal.none⟩ :=
  ⟨rfl, rfl⟩

/-- Claim C8 as amended: a truthy bare scalar (here: a non-zero int, which is
neither falsy, nor a string, nor a sequence) yields the `single` variant
carrying the scalar itself; and among *non-string* inputs only falsy ones
(empty/null/zero-length) can map to the `empty` variant — the sole further
source of `empty` is a string parsing to a zero-length sequence, as the
counterexample shows. -/
theorem c8_scalar_single_amended (ev : List Char → Option PyVal) (i : Int)
    (v : PyVal) (r : ParsedResult) (hi : i ≠ 0)
    (hp : parse_results ev v = Option.some r) (ht : r.type = "empty")
    (hs : ∀ s, v ≠ PyVal.str s) :
    parse_results ev (PyVal.int i) = Option.some ⟨"single", PyVal.int i⟩ ∧
      pyTruthy v = false := by
  constructor
  · have ht' : pyTruthy (PyVal.int i) = true := by simp [pyTruthy, hi]
    simp [parse_results, ht', pyClassify]
  · rcases parse_results_empty_source hp ht with h | ⟨s, hv, _⟩
    · exact h
    · exact absurd hv (hs s)

/-- Claim C8 witness: the amended theorem applied with the scalar 7 and the
falsy input `None`. -/
theorem c8_witness :
    parse_results (fun _ => Option.none) (PyVal.int 7) =
        Option.some ⟨"single", PyVal.int 7⟩ ∧
      pyTruthy PyVal.none = false :=
  c8_scalar_single_amended (fun _ => Option.none) 7 PyVal.none ⟨"empty", PyVal.none⟩
    (by decide) rfl rfl (fun _ h => PyVal.noConfusion h)

/-! ### Claim C9 -/

/-- Claim C9: when the JSON body lacks the `question` field or carries an
empty question, the handler answers 400 with the required-question error
body.  The theorem quantifies over arbitrary LLM-chain, database and parser
collaborators and the result does not depend on them, which is the semantic
content of "without invoking the SQL-generation or execution pipeline". -/
theorem c9_missing_question_400 (sql_chain : String → Except String String)
    (db_run : String → Except String PyVal)
    (literal_eval : List Char → Option PyVal) (tyMsg : String) (body : JsonBody)
    (h : body.question = Option.none ∨ body.question = Option.some "") :
    query sql_chain db_run literal_eval tyMsg body =
      (400, QueryResponse.badRequest "Question is required") := by
  rcases h with h | h <;> simp [query, h]

/-- Claim C9 witness: a body with the `question` key absent is answered 400
even when every collaborator would fail. -/
theorem c9_witness :
    query (fun _ => Except.error "down") (fun _ => Except.error "down")
        (fun _ => Option.none) "TypeError" ⟨Option.none⟩ =
      (400, QueryResponse.badRequest "Question is required") :=
  c9_missing_question_400 (fun _ => Except.error "down") (fun _ => Except.error "down")
    (fun _ => Option.none) "TypeError" ⟨Option.none⟩ (Or.inl rfl)
